import Mathlib

/-!
Verification of the neko-signal core (quality gate, scoring engine, risk
calculator, lifecycle state manager) against its natural-language
specification.  The Python sources under `src/` are shallowly embedded:
prices and volumes become exact rationals (`ℚ`), DataFrames become
`List Candle`, Python dicts become association lists with distinct keys,
and code that can raise returns `Except String`.
-/

/-- One OHLCV row of the DataFrame consumed by the pipeline
(`src/data_ingestion.py` schema:
`[open, high, low, close, volume, taker_buy_volume, taker_sell_volume]`). -/
structure Candle where
  «open» : ℚ
  high : ℚ
  low : ℚ
  close : ℚ
  volume : ℚ
  taker_buy_volume : ℚ
  taker_sell_volume : ℚ
deriving DecidableEq

/-- Default used only as the (never reached) fallback of guarded
positional indexing. -/
def cDefault : Candle := ⟨0, 0, 0, 0, 0, 0, 0⟩

/-- L2 order book snapshot: `{"bids": [[price, size], ...], "asks": [...]}`. -/
structure OrderBook where
  bids : List (ℚ × ℚ)
  asks : List (ℚ × ℚ)
deriving DecidableEq

/-! ### Configuration defaults (`src/config.py`) -/

def OFI_WINDOW : ℕ := 10
def CVD_WINDOW : ℕ := 20
def MOMENTUM_ROC_PERIOD : ℕ := 5
def OB_IMBALANCE_FACTOR : ℚ := 12/10
def OB_PROXIMITY_PCT : ℚ := 5/1000
def VP_BINS : ℕ := 30
def HVN_PERCENTILE : ℚ := 75
def HVN_PROXIMITY_PCT : ℚ := 5/1000
def ATR_PERIOD : ℕ := 14
def ATR_MA_PERIOD : ℕ := 24
def ATR_SL_MULTIPLIER : ℚ := 15/10
def SWING_LOOKBACK : ℕ := 20
def MIN_RR_RATIO : ℚ := 2
def WASH_TRADE_TAKER_RATIO_LOW : ℚ := 49/100
def WASH_TRADE_TAKER_RATIO_HIGH : ℚ := 51/100
def MIN_VOLUME_EFFICIENCY : ℚ := 2/10000

/-! ### Generic list helpers shared by the embedded modules -/

/-- Sum of a list of rationals. -/
def sumQ (l : List ℚ) : ℚ := l.foldr (· + ·) 0

/-- Maximum of a list of rationals (`Series.max` on a nonempty series);
0 on the empty list, which every use guards against. -/
def maxQ : List ℚ → ℚ
  | [] => 0
  | x :: xs => xs.foldl max x

/-- Minimum of a list of rationals (`Series.min` on a nonempty series). -/
def minQ : List ℚ → ℚ
  | [] => 0
  | x :: xs => xs.foldl min x

/-- Insertion step of the sort used to model `np.percentile`s internal
sorting of bin volumes. -/
def insertSorted (x : ℚ) : List ℚ → List ℚ
  | [] => [x]
  | y :: ys => if x ≤ y then x :: y :: ys else y :: insertSorted x ys

/-- Ascending insertion sort (models `np.sort` / the sort inside
`np.percentile`). -/
def sortQ (l : List ℚ) : List ℚ := l.foldr insertSorted []

/-- `np.percentile(a, p)` with the default linear interpolation:
rank `(n-1)·p/100` between the two neighbouring order statistics. -/
def percentile (l : List ℚ) (p : ℚ) : ℚ :=
  let s := sortQ l
  match s with
  | [] => 0
  | _ :: _ =>
    let n := s.length
    let rank : ℚ := (n - 1 : ℚ) * p / 100
    let i : ℕ := (Int.floor rank).toNat
    let frac : ℚ := rank - Int.floor rank
    let lo := s.getD i 0
    let hi := s.getD (min (i + 1) (n - 1)) 0
    lo + frac * (hi - lo)

/-- Python `round(x, n)` (round half to even at `n` decimal places),
integer part: nearest integer to `q`, ties to the even integer. -/
def roundHalfEven (q : ℚ) : ℤ :=
  if q - Int.floor q < 1/2 then Int.floor q
  else if 1/2 < q - Int.floor q then Int.floor q + 1
  else if Int.floor q % 2 = 0 then Int.floor q else Int.floor q + 1

/-- Python `round(x, n)` on exact rationals. -/
def roundTo (q : ℚ) (n : ℕ) : ℚ := (roundHalfEven (q * 10 ^ n) : ℚ) / 10 ^ n

/-! ### Volume profile (identical code in `scoring_engine._build_volume_profile`
/ `_get_hvn_levels` and `risk_manager._get_hvn_levels`) -/

/-- `np.linspace(price_min, price_max, VP_BINS + 1)`: the exact bin edges. -/
def binEdges (price_min price_max : ℚ) : List ℚ :=
  (List.range (VP_BINS + 1)).map
    (fun j => price_min + j * (price_max - price_min) / VP_BINS)

/-- Midpoints `(edges[:-1] + edges[1:]) / 2`. -/
def binMids (price_min price_max : ℚ) : List ℚ :=
  (List.range VP_BINS).map
    (fun i => (price_min + i * (price_max - price_min) / VP_BINS
              + (price_min + (i + 1 : ℕ) * (price_max - price_min) / VP_BINS)) / 2)

/-- `np.clip(np.digitize(x, edges) - 1, 0, VP_BINS - 1)`: for ascending
edges, `np.digitize` is the number of edges `≤ x`; `ℕ` subtraction gives
the lower clip for free. -/
def binIndex (price_min price_max : ℚ) (x : ℚ) : ℕ :=
  min (((binEdges price_min price_max).filter (fun e => e ≤ x)).length - 1)
    (VP_BINS - 1)

/-- Per-bin accumulated volume (`np.add.at(vol_bins, indices, volume)`):
each candle's volume is credited to the bin holding its close. -/
def volBins (df : List Candle) (price_min price_max : ℚ) : List ℚ :=
  (List.range VP_BINS).map
    (fun i => sumQ ((df.filter
      (fun c => binIndex price_min price_max c.close = i)).map (·.volume)))

/-- `_get_hvn_levels(df)`: mids of the bins whose volume is at or above the
`HVN_PERCENTILE`-th percentile of all bins; empty when the price range is
degenerate.  The result is ascending because the mids are. -/
def hvn_levels (df : List Candle) : List ℚ :=
  let price_min := minQ (df.map (·.low))
  let price_max := maxQ (df.map (·.high))
  if price_max ≤ price_min then []
  else
    let vols := volBins df price_min price_max
    let threshold := percentile vols HVN_PERCENTILE
    ((binMids price_min price_max).zip vols).filterMap
      (fun mv => if threshold ≤ mv.2 then some mv.1 else none)

/-! ### ATR (`logic_filters.compute_atr` and `risk_manager._compute_atr`) -/

/-- Tail of the true-range series: `prev` is the previous candle's close. -/
def trAux (prev : Candle) : List Candle → List ℚ
  | [] => []
  | c :: rest =>
    max (c.high - c.low) (max |c.high - prev.close| |c.low - prev.close|)
      :: trAux c rest

/-- True range per candle.  The first row has no previous close (NaN), and
pandas `max(axis=1)` skips NaN, so it degenerates to `high - low`. -/
def trueRanges : List Candle → List ℚ
  | [] => []
  | c :: rest => (c.high - c.low) :: trAux c rest

/-- `series.rolling(w, min_periods=w).mean()`: `none` models NaN during
warm-up (fewer than `w` observations). -/
def rollingMeanOpt (l : List ℚ) (w : ℕ) : List (Option ℚ) :=
  (List.range l.length).map
    (fun i => if w ≤ i + 1
      then some (sumQ ((l.take (i + 1)).drop (i + 1 - w)) / w)
      else none)

/-- Rolling mean over a series that may itself contain NaN (`none`): with
`min_periods = w` the result is defined only when the window is full and
entirely NaN-free. -/
def rollingMeanOfOpt (l : List (Option ℚ)) (w : ℕ) : List (Option ℚ) :=
  (List.range l.length).map
    (fun i =>
      let win := (l.take (i + 1)).drop (i + 1 - w)
      if win.length = w ∧ win.all (·.isSome)
      then some (sumQ (win.map (fun o => o.getD 0)) / w)
      else none)

/-- `risk_manager._compute_atr`: latest completed-candle ATR via
`tr.rolling(period, min_periods=period).mean().iloc[-2]`, with the NaN
fallback to `0.0`.  `iloc[-2]` on a series shorter than 2 raises
`IndexError`, modelled as `Except.error`. -/
def _compute_atr (df : List Candle) : Except String ℚ :=
  let rm := rollingMeanOpt (trueRanges df) ATR_PERIOD
  if 2 ≤ rm.length then
    match rm.getD (rm.length - 2) none with
    | some v => Except.ok v
    | none => Except.ok 0
  else Except.error "IndexError"

/-! ### Risk manager (`src/risk_manager.py`) -/

/-- Result dict `{"Entry", "SL", "TP", "RR"}` of `calculate_risk_params`. -/
structure RiskParams where
  Entry : ℚ
  SL : ℚ
  TP : ℚ
  RR : ℚ
deriving DecidableEq

/-- `_get_swing_extremes` window: `df.iloc[-lookback:]`. -/
def swingWindow (df : List Candle) : List Candle :=
  df.drop (df.length - SWING_LOOKBACK)

/-- Swing high over the recent lookback window. -/
def swing_high (df : List Candle) : ℚ := maxQ ((swingWindow df).map (·.high))

/-- Swing low over the recent lookback window. -/
def swing_low (df : List Candle) : ℚ := minQ ((swingWindow df).map (·.low))

/-- `_find_nearest_above`: closest level strictly above `price` in an
ascending list. -/
def _find_nearest_above (levels : List ℚ) (price : ℚ) : Option ℚ :=
  (levels.filter (fun l => price < l)).head?

/-- `_find_nearest_below`: closest level strictly below `price` in an
ascending list. -/
def _find_nearest_below (levels : List ℚ) (price : ℚ) : Option ℚ :=
  (levels.filter (fun l => l < price)).getLast?

/-- Entry price: `df["close"].iloc[-1]` (callers guard nonemptiness). -/
def risk_entry (df : List Candle) : ℚ := (df.getLastD cDefault).close

/-- The local `sl` of `calculate_risk_params`: HVN anchor below (LONG) or
above (SHORT) entry, swing fallback, ATR buffer on the stop side only. -/
def risk_sl (df : List Candle) (direction : String) (sl_buffer : ℚ) : ℚ :=
  if direction = "LONG" then
    (match _find_nearest_below (hvn_levels df) (risk_entry df) with
      | some a => a
      | none => swing_low df) - sl_buffer
  else
    (match _find_nearest_above (hvn_levels df) (risk_entry df) with
      | some a => a
      | none => swing_high df) + sl_buffer

/-- The local `tp` of `calculate_risk_params`: nearest HVN on the profit
side, swing fallback. -/
def risk_tp (df : List Candle) (direction : String) : ℚ :=
  if direction = "LONG" then
    match _find_nearest_above (hvn_levels df) (risk_entry df) with
    | some t => t
    | none => swing_high df
  else
    match _find_nearest_below (hvn_levels df) (risk_entry df) with
    | some t => t
    | none => swing_low df

/-- `calculate_risk_params(df, direction, atr_multiplier_sl)`:
`.ok none` is the documented "no trade" rejection, `.error` a raised
exception.  In the model the swing fallback always resolves, so the
`sl is None or tp is None` check of the source is vacuous. -/
def calculate_risk_params (df : List Candle) (direction : String)
    (atr_multiplier_sl : ℚ) : Except String (Option RiskParams) :=
  if df.isEmpty then Except.ok none
  else if direction ≠ "LONG" ∧ direction ≠ "SHORT" then Except.ok none
  else
    match _compute_atr df with
    | Except.error e => Except.error e
    | Except.ok atr =>
      if direction = "LONG" ∧ (risk_entry df ≤ risk_sl df direction (atr * atr_multiplier_sl)
          ∨ risk_tp df direction ≤ risk_entry df) then Except.ok none
      else if direction = "SHORT" ∧ (risk_sl df direction (atr * atr_multiplier_sl) ≤ risk_entry df
          ∨ risk_entry df ≤ risk_tp df direction) then Except.ok none
      else if |risk_entry df - risk_sl df direction (atr * atr_multiplier_sl)| ≤ 0 then Except.ok none
      else if roundTo (|risk_tp df direction - risk_entry df|
          / |risk_entry df - risk_sl df direction (atr * atr_multiplier_sl)|) 3 < MIN_RR_RATIO
        then Except.ok none
      else Except.ok (some
        { Entry := roundTo (risk_entry df) 8
          SL := roundTo (risk_sl df direction (atr * atr_multiplier_sl)) 8
          TP := roundTo (risk_tp df direction) 8
          RR := roundTo (|risk_tp df direction - risk_entry df|
            / |risk_entry df - risk_sl df direction (atr * atr_multiplier_sl)|) 3 })

/-! ### Scoring engine (`src/scoring_engine.py`) -/

/-- `_compute_ofi`: per-candle taker buy minus taker sell volume. -/
def _compute_ofi (df : List Candle) : List ℚ :=
  df.map (fun c => c.taker_buy_volume - c.taker_sell_volume)

/-- Condition 1: sign of `ofi.rolling(OFI_WINDOW, min_periods=1).mean().iloc[-1]`,
i.e. the mean of the last `min(OFI_WINDOW, n)` OFI values (callers guard
nonemptiness). -/
def _score_ofi (df : List Candle) : ℤ :=
  let ofi := _compute_ofi df
  let t := ofi.drop (ofi.length - OFI_WINDOW)
  let rolling_ofi := sumQ t / (t.length : ℚ)
  if 0 < rolling_ofi then 1 else if rolling_ofi < 0 then -1 else 0

/-- CVD value at index `i`: rolling sum of OFI over `CVD_WINDOW` with
`min_periods=1` (`ℕ` subtraction clamps the window start at 0). -/
def cvdAt (ofi : List ℚ) (i : ℕ) : ℚ :=
  sumQ ((ofi.take (i + 1)).drop (i + 1 - CVD_WINDOW))

/-- Condition 2: sign of `CVD[-1] - CVD[max(0, n - max(1, CVD_WINDOW/2) - 1)]`. -/
def _score_cvd_trend (df : List Candle) : ℤ :=
  let ofi := _compute_ofi df
  let n := ofi.length
  if n < 2 then 0
  else
    let mid_offset := max 1 (CVD_WINDOW / 2)
    let mid_idx := n - mid_offset - 1
    let slope := cvdAt ofi (n - 1) - cvdAt ofi mid_idx
    if 0 < slope then 1 else if slope < 0 then -1 else 0

/-- Condition 3: close versus session VWAP; the zero-cumulative-volume NaN
guard (`cum_vol.replace(0, np.nan)` then `np.isnan`) votes 0. -/
def _score_vwap (df : List Candle) : ℤ :=
  let cum_vol := sumQ (df.map (·.volume))
  let current_close := (df.getLastD cDefault).close
  if cum_vol = 0 then 0
  else
    let current_vwap :=
      sumQ (df.map (fun c => (c.high + c.low + c.close) / 3 * c.volume)) / cum_vol
    if current_vwap < current_close then 1
    else if current_close < current_vwap then -1
    else 0

/-- Momentum sub-component of Condition 4: sign of the
`MOMENTUM_ROC_PERIOD`-candle rate of change, 0 with insufficient history. -/
def momentum_sub (df : List Candle) : ℤ :=
  if MOMENTUM_ROC_PERIOD + 1 ≤ df.length then
    let close_now := (df.getLastD cDefault).close
    let close_ago := (df.getD (df.length - (MOMENTUM_ROC_PERIOD + 1)) cDefault).close
    let roc := (close_now - close_ago) / (close_ago + 1/1000000000000)
    if 0 < roc then 1 else if roc < 0 then -1 else 0
  else 0

/-- Orderbook-clearance sub-component of Condition 4.  An absent snapshot
(`None`, or a falsy empty dict) yields empty `bids_raw`/`asks_raw`; lists
of pairs are always rectangular, so the `ndim == 2` check of the source
holds whenever both sides are nonempty. -/
def book_sub (orderbook : Option OrderBook) : ℤ :=
  let bids_raw := match orderbook with | none => [] | some b => b.bids
  let asks_raw := match orderbook with | none => [] | some b => b.asks
  match bids_raw, asks_raw with
  | [], _ => 0
  | _, [] => 0
  | b0 :: brest, a0 :: arest =>
    let mid := (b0.1 + a0.1) / 2
    let lower := mid * (1 - OB_PROXIMITY_PCT)
    let upper := mid * (1 + OB_PROXIMITY_PCT)
    let bid_liq := sumQ (((b0 :: brest).filter (fun p => lower ≤ p.1)).map (·.2))
    let ask_liq := sumQ (((a0 :: arest).filter (fun p => p.1 ≤ upper)).map (·.2))
    if ask_liq * OB_IMBALANCE_FACTOR < bid_liq then 1
    else if bid_liq * OB_IMBALANCE_FACTOR < ask_liq then -1
    else 0

/-- Condition 4: momentum and book must not actively disagree. -/
def _score_momentum_and_orderbook (df : List Candle) (orderbook : Option OrderBook) : ℤ :=
  let momentum_score := momentum_sub df
  let book_score := book_sub orderbook
  if momentum_score = 1 ∧ 0 ≤ book_score then 1
  else if momentum_score = -1 ∧ book_score ≤ 0 then -1
  else 0

/-- `np.argmin(np.abs(hvn_levels - close))`: the level nearest to `x`,
first one on ties (callers guard nonemptiness). -/
def nearestLevel (x : ℚ) : List ℚ → ℚ
  | [] => 0
  | l :: ls => ls.foldl (fun best lv => if |lv - x| < |best - x| then lv else best) l

/-- Condition 5: swing-sweep detection with priority over HVN proximity. -/
def _score_liquidity_zones (df : List Candle) : ℤ :=
  if df.length < 22 then 0
  else
    let last := df.getLastD cDefault
    let current_close := last.close
    let prior := (df.take (df.length - 1)).drop (df.length - 1 - 20)
    let sweep_high := maxQ (prior.map (·.high))
    let sweep_low := minQ (prior.map (·.low))
    if sweep_high < last.high ∧ current_close < sweep_high then -1
    else if last.low < sweep_low ∧ sweep_low < current_close then 1
    else
      match hvn_levels df with
      | [] => 0
      | l0 :: ls =>
        let nearest_hvn := nearestLevel current_close (l0 :: ls)
        let proximity := |current_close - nearest_hvn| / (nearest_hvn + 1/1000000000000)
        if proximity ≤ HVN_PROXIMITY_PCT then
          if nearest_hvn ≤ current_close then 1 else -1
        else 0

/-- `compute_score(df, orderbook)`: 0 for a `None`, empty or
shorter-than-30-row DataFrame, otherwise the unweighted sum of the five
condition votes (the `symbol` argument only affects logging). -/
def compute_score (df : Option (List Candle)) (orderbook : Option OrderBook) : ℤ :=
  match df with
  | none => 0
  | some l =>
    if l.length < 30 then 0
    else
      _score_ofi l + _score_cvd_trend l + _score_vwap l
        + _score_momentum_and_orderbook l orderbook + _score_liquidity_zones l

/-! ### Quality gate (`src/logic_filters.py`) -/

/-- `logic_filters.compute_atr`: the full ATR series (NaN as `none`). -/
def compute_atr (df : List Candle) : List (Option ℚ) :=
  rollingMeanOpt (trueRanges df) ATR_PERIOD

/-- `gate_anti_wash_trading(df)`: three ANDed sub-filters on the
second-to-last candle; any failure (including insufficient rows or NaN
warm-up) returns `false`. -/
def gate_anti_wash_trading (df : List Candle) : Bool :=
  if df.length < ATR_MA_PERIOD + ATR_PERIOD + 2 then false
  else
    let candle := df.getD (df.length - 2) cDefault
    if candle.volume ≤ 0 then false
    else if |candle.close - candle.«open»| / candle.volume < MIN_VOLUME_EFFICIENCY then false
    else
      let atr_series := compute_atr df
      let atr_ma_series := rollingMeanOfOpt atr_series ATR_MA_PERIOD
      match atr_series.getD (df.length - 2) none,
            atr_ma_series.getD (df.length - 2) none with
      | some latest_atr, some latest_atr_ma =>
        if latest_atr < latest_atr_ma then false
        else if WASH_TRADE_TAKER_RATIO_LOW ≤ candle.taker_buy_volume / candle.volume
                ∧ candle.taker_buy_volume / candle.volume ≤ WASH_TRADE_TAKER_RATIO_HIGH
             then false
        else true
      | _, _ => false

/-! ### State manager (`src/state_manager.py`) -/

/-- A Python `dict[str, α]` as an association list; all constructors keep
keys pairwise distinct, mirroring real dict semantics. -/
abbrev Dict (α : Type) := List (String × α)

/-- `d.get(key)` -/
def dictGet {α : Type} : Dict α → String → Option α
  | [], _ => none
  | p :: rest, key => if key = p.1 then some p.2 else dictGet rest key

/-- `key in d` -/
def dictContains {α : Type} (d : Dict α) (k : String) : Bool :=
  d.any (fun p => decide (p.1 = k))

/-- `d[key] = value`: replace in place when present, append when absent
(Python 3.7+ insertion-order semantics). -/
def dictSet {α : Type} (d : Dict α) (k : String) (v : α) : Dict α :=
  if dictContains d k then d.map (fun p => if p.1 = k then (k, v) else p)
  else d ++ [(k, v)]

/-- `{p: value for p in pairs}` -/
def mkDict {α : Type} (pairs : List String) (v : α) : Dict α :=
  pairs.foldl (fun d p => dictSet d p v) []

/-- `PairState` lifecycle enum. -/
inductive PairState where
  | IDLE
  | LONG
  | SHORT
deriving DecidableEq

/-- Frozen dataclass `VirtualPosition`. -/
structure VirtualPosition where
  symbol : String
  direction : String
  entry : ℚ
  tp : ℚ
  sl : ℚ
  rr : ℚ
  score : ℤ
deriving DecidableEq

/-- `StateManager`: the two private registries `_states` and `_positions`. -/
structure StateManager where
  states : Dict PairState
  positions : Dict (Option VirtualPosition)
deriving DecidableEq

/-- `StateManager.__init__(pairs)`: every tracked pair starts IDLE with no
position. -/
def StateManager.init (pairs : List String) : StateManager :=
  { states := mkDict pairs PairState.IDLE
    positions := mkDict pairs (none : Option VirtualPosition) }

/-- `get_state`: defaults to IDLE for unknown symbols. -/
def get_state (sm : StateManager) (symbol : String) : PairState :=
  (dictGet sm.states symbol).getD PairState.IDLE

/-- `is_idle`: `self._states.get(symbol) == PairState.IDLE` — note the
missing default, so an untracked symbol compares `None == IDLE`, false. -/
def is_idle (sm : StateManager) (symbol : String) : Bool :=
  decide (dictGet sm.states symbol = some PairState.IDLE)

/-- `get_position`: `self._positions.get(symbol)` (None when untracked or
no open position). -/
def get_position (sm : StateManager) (symbol : String) : Option VirtualPosition :=
  (dictGet sm.positions symbol).getD none

/-- `lock_pair`: IDLE → LONG/SHORT transition storing a fresh
`VirtualPosition`; returns the mutated manager and the success flag.
Before the non-IDLE branch returns `False` it logs
`self._states[symbol].name`: for a tracked symbol that subscript is
effect-free, but for an untracked one (where `is_idle` is false because
`.get` returned `None`) it raises `KeyError`, modelled as
`Except.error`. -/
def lock_pair (sm : StateManager) (symbol direction : String)
    (entry tp sl rr : ℚ) (score : ℤ) : Except String (StateManager × Bool) :=
  if is_idle sm symbol then
    Except.ok
      ({ states := dictSet sm.states symbol
             (if direction = "LONG" then PairState.LONG else PairState.SHORT)
         positions := dictSet sm.positions symbol
             (some ⟨symbol, direction, entry, tp, sl, rr, score⟩) }, true)
  else
    match dictGet sm.states symbol with
    | some _ => Except.ok (sm, false)
    | none => Except.error "KeyError"

/-- The registry state after a `lock_pair` call: the mutated manager on
success, the caller's manager otherwise — both the tracked `False`
return and the untracked `KeyError` raise happen before any mutation. -/
def lock_pair_state (sm : StateManager) (symbol direction : String)
    (entry tp sl rr : ℚ) (score : ℤ) : StateManager :=
  match lock_pair sm symbol direction entry tp sl rr score with
  | Except.ok p => p.1
  | Except.error _ => sm

set_option linter.unusedVariables false in
/-- `unlock_pair`: reset to IDLE and clear the position; `reason` is only
logged. -/
def unlock_pair (sm : StateManager) (symbol : String)
    (reason : String := "manual") : StateManager :=
  { states := dictSet sm.states symbol PairState.IDLE
    positions := dictSet sm.positions symbol none }

/-- The TP-before-SL breach test of `update_virtual_positions`, returning
the reason string passed to `unlock_pair` (and logged) on a hit. -/
def hit_reason (position : VirtualPosition) (price : ℚ) : Option String :=
  if position.direction = "LONG" then
    if position.tp ≤ price then some "TP_HIT"
    else if price ≤ position.sl then some "SL_HIT"
    else none
  else if position.direction = "SHORT" then
    if price ≤ position.tp then some "TP_HIT"
    else if position.sl ≤ price then some "SL_HIT"
    else none
  else none

/-- One iteration of the `update_virtual_positions` loop; the second
component of the accumulator records the `(symbol, reason)` unlock events
(the log lines of the source). -/
def upd_step (current_prices : Dict ℚ) (acc : StateManager × List (String × String))
    (e : String × Option VirtualPosition) : StateManager × List (String × String) :=
  match e.2 with
  | none => acc
  | some position =>
    match dictGet current_prices e.1 with
    | none => acc
    | some price =>
      match hit_reason position price with
      | some reason => (unlock_pair acc.1 e.1 reason, acc.2 ++ [(e.1, reason)])
      | none => acc

/-- `update_virtual_positions`: iterate over a snapshot of
`self._positions.items()`, unlocking every position whose TP or SL the
current price has breached; symbols absent from `current_prices` are
skipped. -/
def update_virtual_positions (sm : StateManager) (current_prices : Dict ℚ) :
    StateManager × List (String × String) :=
  sm.positions.foldl (upd_step current_prices) (sm, [])

/-- States reachable from construction by any sequence of `lock_pair`,
`unlock_pair` and `update_virtual_positions` calls. -/
inductive Reachable : StateManager → Prop where
  | init (pairs : List String) : Reachable (StateManager.init pairs)
  | lock (sm : StateManager) (symbol direction : String)
      (entry tp sl rr : ℚ) (score : ℤ) :
      Reachable sm → Reachable (lock_pair_state sm symbol direction entry tp sl rr score)
  | unlock (sm : StateManager) (symbol reason : String) :
      Reachable sm → Reachable (unlock_pair sm symbol reason)
  | update (sm : StateManager) (prices : Dict ℚ) :
      Reachable sm → Reachable (update_virtual_positions sm prices).1


/-! ### Dictionary lemmas -/

theorem dictContains_iff {α : Type} (d : Dict α) (k : String) :
    dictContains d k = true ↔ k ∈ d.map Prod.fst := by
  unfold dictContains
  rw [List.any_eq_true]
  constructor
  · rintro ⟨p, hp, hk⟩
    exact List.mem_map.mpr ⟨p, hp, of_decide_eq_true hk⟩
  · rintro h
    obtain ⟨p, hp, hk⟩ := List.mem_map.mp h
    exact ⟨p, hp, decide_eq_true hk⟩

theorem dictContains_cons {α : Type} (p : String × α) (rest : Dict α) (k : String) :
    dictContains (p :: rest) k = (decide (p.1 = k) || dictContains rest k) := by
  simp [dictContains, List.any_cons]

theorem dictGet_map_set {α : Type} (d : Dict α) (k : String) (v : α) (key : String) :
    dictGet (d.map (fun p => if p.1 = k then (k, v) else p)) key =
      if key = k then (if dictContains d k then some v else none)
      else dictGet d key := by
  induction d with
  | nil =>
    simp only [List.map_nil, dictGet, dictContains, List.any_nil]
    split <;> rfl
  | cons p rest ih =>
    by_cases h1 : p.1 = k
    · have hc : dictContains (p :: rest) k = true := by
        simp [dictContains_cons, h1]
      by_cases hkey : key = k
      · simp [dictGet, h1, hkey, hc]
      · simp [dictGet, h1, hkey, hc, ih]
    · have hc : dictContains (p :: rest) k = dictContains rest k := by
        simp [dictContains_cons, h1]
      by_cases hkey : key = p.1
      · have hkk : ¬ key = k := fun h => h1 (hkey ▸ h)
        simp [dictGet, h1, hkey, hkk]
      · simp [dictGet, h1, hkey, hc, ih]

theorem dictGet_append_new {α : Type} (d : Dict α) (k : String) (v : α) (key : String)
    (h : dictContains d k = false) :
    dictGet (d ++ [(k, v)]) key = if key = k then some v else dictGet d key := by
  induction d with
  | nil =>
    simp [dictGet]
  | cons p rest ih =>
    rw [dictContains_cons, Bool.or_eq_false_iff] at h
    have h1 : ¬ p.1 = k := by simpa using h.1
    by_cases hkey : key = p.1
    · have hkk : ¬ key = k := fun he => h1 (hkey ▸ he)
      simp [dictGet, hkey, hkk, h1]
    · simp [dictGet, hkey, ih h.2]

theorem dictGet_dictSet {α : Type} (d : Dict α) (k : String) (v : α) (key : String) :
    dictGet (dictSet d k v) key = if key = k then some v else dictGet d key := by
  unfold dictSet
  by_cases hc : dictContains d k
  · rw [if_pos hc, dictGet_map_set, hc]
    split <;> rfl
  · rw [if_neg hc, dictGet_append_new d k v key (by simpa using hc)]

theorem keys_dictSet {α : Type} (d : Dict α) (k : String) (v : α) :
    (dictSet d k v).map Prod.fst =
      if dictContains d k then d.map Prod.fst else d.map Prod.fst ++ [k] := by
  unfold dictSet
  by_cases hc : dictContains d k
  · rw [if_pos hc, if_pos hc, List.map_map]
    refine List.map_congr_left ?_
    intro p hp
    by_cases h1 : p.1 = k <;> simp [h1]
  · rw [if_neg hc, if_neg hc, List.map_append]
    rfl

theorem nodupKeys_dictSet {α : Type} (d : Dict α) (k : String) (v : α)
    (h : (d.map Prod.fst).Nodup) : ((dictSet d k v).map Prod.fst).Nodup := by
  rw [keys_dictSet]
  by_cases hc : dictContains d k
  · rwa [if_pos hc]
  · rw [if_neg hc]
    have hk : k ∉ d.map Prod.fst := fun hm => hc ((dictContains_iff d k).mpr hm)
    rw [List.nodup_append]
    refine ⟨h, List.nodup_singleton k, ?_⟩
    intro a ha hb
    rw [List.mem_singleton] at hb
    exact hk (hb ▸ ha)

/-! ### State manager accessor lemmas -/

theorem get_state_unlock (sm : StateManager) (s reason key : String) :
    get_state (unlock_pair sm s reason) key =
      if key = s then PairState.IDLE else get_state sm key := by
  unfold get_state unlock_pair
  simp only [dictGet_dictSet]
  split <;> rfl

theorem get_position_unlock (sm : StateManager) (s reason key : String) :
    get_position (unlock_pair sm s reason) key =
      if key = s then none else get_position sm key := by
  unfold get_position unlock_pair
  simp only [dictGet_dictSet]
  split <;> rfl

theorem lock_pair_of_idle (sm : StateManager) (symbol direction : String)
    (entry tp sl rr : ℚ) (score : ℤ) (h : is_idle sm symbol = true) :
    lock_pair sm symbol direction entry tp sl rr score =
      Except.ok
        (({ states := dictSet sm.states symbol
               (if direction = "LONG" then PairState.LONG else PairState.SHORT)
            positions := dictSet sm.positions symbol
               (some ⟨symbol, direction, entry, tp, sl, rr, score⟩) } : StateManager),
         true) := by
  unfold lock_pair
  rw [h]
  rfl

theorem lock_pair_state_of_idle (sm : StateManager) (symbol direction : String)
    (entry tp sl rr : ℚ) (score : ℤ) (h : is_idle sm symbol = true) :
    lock_pair_state sm symbol direction entry tp sl rr score =
      { states := dictSet sm.states symbol
            (if direction = "LONG" then PairState.LONG else PairState.SHORT)
        positions := dictSet sm.positions symbol
            (some ⟨symbol, direction, entry, tp, sl, rr, score⟩) } := by
  unfold lock_pair_state
  rw [lock_pair_of_idle sm symbol direction entry tp sl rr score h]

theorem lock_pair_of_tracked_locked (sm : StateManager) (symbol direction : String)
    (entry tp sl rr : ℚ) (score : ℤ) (st : PairState)
    (hst : dictGet sm.states symbol = some st) (hne : ¬ st = PairState.IDLE) :
    lock_pair sm symbol direction entry tp sl rr score = Except.ok (sm, false) := by
  have hid : is_idle sm symbol = false := by
    unfold is_idle
    rw [hst]
    simp [hne]
  unfold lock_pair
  rw [hid, hst]
  rfl

theorem lock_pair_of_untracked (sm : StateManager) (symbol direction : String)
    (entry tp sl rr : ℚ) (score : ℤ) (h : dictGet sm.states symbol = none) :
    lock_pair sm symbol direction entry tp sl rr score = Except.error "KeyError" := by
  have hid : is_idle sm symbol = false := by simp [is_idle, h]
  unfold lock_pair
  rw [hid, h]
  rfl

theorem lock_pair_state_of_not_idle (sm : StateManager) (symbol direction : String)
    (entry tp sl rr : ℚ) (score : ℤ) (h : is_idle sm symbol = false) :
    lock_pair_state sm symbol direction entry tp sl rr score = sm := by
  unfold lock_pair_state lock_pair
  rw [h]
  cases dictGet sm.states symbol <;> rfl

/-- C3: `lock_pair` on an IDLE symbol stores the direction-matching state
and a fresh `VirtualPosition` and returns true; on a tracked symbol whose
state is not IDLE it returns false leaving the registries untouched;
hence of two successive lock attempts on an initially idle symbol exactly
the first succeeds. -/
theorem C3_lock_pair_guard (sm : StateManager) (symbol direction : String)
    (entry tp sl rr : ℚ) (score : ℤ) :
    (is_idle sm symbol = true →
      lock_pair sm symbol direction entry tp sl rr score
        = Except.ok (lock_pair_state sm symbol direction entry tp sl rr score, true) ∧
      get_state (lock_pair_state sm symbol direction entry tp sl rr score) symbol
        = (if direction = "LONG" then PairState.LONG else PairState.SHORT) ∧
      get_position (lock_pair_state sm symbol direction entry tp sl rr score) symbol
        = some ⟨symbol, direction, entry, tp, sl, rr, score⟩ ∧
      (∀ (d2 : String) (e2 t2 s2 r2 : ℚ) (sc2 : ℤ),
        lock_pair (lock_pair_state sm symbol direction entry tp sl rr score)
            symbol d2 e2 t2 s2 r2 sc2
          = Except.ok (lock_pair_state sm symbol direction entry tp sl rr score, false))) ∧
    (∀ st : PairState, dictGet sm.states symbol = some st → ¬ st = PairState.IDLE →
      lock_pair sm symbol direction entry tp sl rr score = Except.ok (sm, false)) := by
  constructor
  · intro h
    have hS := lock_pair_state_of_idle sm symbol direction entry tp sl rr score h
    rw [lock_pair_of_idle sm symbol direction entry tp sl rr score h, hS]
    have hst : get_state
        ({ states := dictSet sm.states symbol
              (if direction = "LONG" then PairState.LONG else PairState.SHORT)
           positions := dictSet sm.positions symbol
              (some ⟨symbol, direction, entry, tp, sl, rr, score⟩) } : StateManager) symbol
        = (if direction = "LONG" then PairState.LONG else PairState.SHORT) := by
      unfold get_state
      simp only [dictGet_dictSet, if_pos rfl]
      rfl
    refine ⟨rfl, hst, ?_, ?_⟩
    · unfold get_position
      simp only [dictGet_dictSet, if_pos rfl]
      rfl
    · intro d2 e2 t2 s2 r2 sc2
      apply lock_pair_of_tracked_locked _ _ d2 e2 t2 s2 r2 sc2
        (if direction = "LONG" then PairState.LONG else PairState.SHORT)
      · rw [dictGet_dictSet, if_pos rfl]
      · split <;> simp
  · intro st hst hne
    exact lock_pair_of_tracked_locked sm symbol direction entry tp sl rr score st hst hne

/-- Witness for C3 at a concrete freshly initialised manager. -/
theorem C3_lock_pair_guard_witness :
    lock_pair (StateManager.init ["BTC/USDT:USDT"]) "BTC/USDT:USDT" "LONG" 100 104 98 2 4
      = Except.ok (lock_pair_state (StateManager.init ["BTC/USDT:USDT"]) "BTC/USDT:USDT"
          "LONG" 100 104 98 2 4, true) ∧
    get_state (lock_pair_state (StateManager.init ["BTC/USDT:USDT"]) "BTC/USDT:USDT"
        "LONG" 100 104 98 2 4) "BTC/USDT:USDT" = PairState.LONG ∧
    lock_pair (lock_pair_state (StateManager.init ["BTC/USDT:USDT"]) "BTC/USDT:USDT"
        "LONG" 100 104 98 2 4) "BTC/USDT:USDT" "SHORT" 100 96 102 2 (-4)
      = Except.ok (lock_pair_state (StateManager.init ["BTC/USDT:USDT"]) "BTC/USDT:USDT"
          "LONG" 100 104 98 2 4, false) := by
  have h := (C3_lock_pair_guard (StateManager.init ["BTC/USDT:USDT"]) "BTC/USDT:USDT"
    "LONG" 100 104 98 2 4).1 (by decide)
  refine ⟨h.1, ?_, h.2.2.2 "SHORT" 100 96 102 2 (-4)⟩
  have := h.2.1
  simpa using this

/-- C10 counterexample: `lock_pair` on an untracked symbol does not
return false — the warning log's `self._states[symbol].name` lookup
raises `KeyError` first. -/
theorem C10_counterexample_keyerror :
    lock_pair (StateManager.init ["BTC/USDT:USDT"]) "ETH/USDT:USDT" "LONG" 100 104 98 2 4
      = Except.error "KeyError" ∧
    ¬ lock_pair (StateManager.init ["BTC/USDT:USDT"]) "ETH/USDT:USDT" "LONG" 100 104 98 2 4
      = Except.ok (StateManager.init ["BTC/USDT:USDT"], false) := by
  have h : lock_pair (StateManager.init ["BTC/USDT:USDT"]) "ETH/USDT:USDT" "LONG"
      100 104 98 2 4 = Except.error "KeyError" :=
    lock_pair_of_untracked (StateManager.init ["BTC/USDT:USDT"]) "ETH/USDT:USDT" "LONG"
      100 104 98 2 4 (by decide)
  refine ⟨h, fun hcon => ?_⟩
  rw [h] at hcon
  exact absurd hcon (by simp)

/-- C10 (amended): a symbol absent from the registry reports
`get_state = IDLE` while `is_idle` is false, and `lock_pair` on it never
creates a position — it raises `KeyError` (from the warning log's state
lookup) instead of returning false, leaving the registries untouched. -/
theorem C10_untracked_symbol (sm : StateManager) (symbol direction : String)
    (entry tp sl rr : ℚ) (score : ℤ) (h : dictGet sm.states symbol = none) :
    get_state sm symbol = PairState.IDLE ∧
    is_idle sm symbol = false ∧
    lock_pair sm symbol direction entry tp sl rr score = Except.error "KeyError" ∧
    lock_pair_state sm symbol direction entry tp sl rr score = sm := by
  have hidle : is_idle sm symbol = false := by simp [is_idle, h]
  refine ⟨by simp [get_state, h], hidle,
    lock_pair_of_untracked sm symbol direction entry tp sl rr score h,
    lock_pair_state_of_not_idle sm symbol direction entry tp sl rr score hidle⟩

/-- Witness for C10: `"ETH/USDT:USDT"` is untracked by a manager built
for `["BTC/USDT:USDT"]`. -/
theorem C10_untracked_symbol_witness :
    get_state (StateManager.init ["BTC/USDT:USDT"]) "ETH/USDT:USDT" = PairState.IDLE ∧
    is_idle (StateManager.init ["BTC/USDT:USDT"]) "ETH/USDT:USDT" = false ∧
    lock_pair (StateManager.init ["BTC/USDT:USDT"]) "ETH/USDT:USDT" "LONG" 100 104 98 2 4
      = Except.error "KeyError" ∧
    lock_pair_state (StateManager.init ["BTC/USDT:USDT"]) "ETH/USDT:USDT" "LONG"
        100 104 98 2 4
      = StateManager.init ["BTC/USDT:USDT"] :=
  C10_untracked_symbol (StateManager.init ["BTC/USDT:USDT"]) "ETH/USDT:USDT" "LONG"
    100 104 98 2 4 (by decide)

/-! ### `update_virtual_positions` resolution lemmas -/

/-- The outcome `update_virtual_positions` computes for a single open
position: the unlock reason, or `none` when the price is absent or inside
the band. -/
def resolution (position : VirtualPosition) (prices : Dict ℚ) (s : String) : Option String :=
  match dictGet prices s with
  | none => none
  | some price => hit_reason position price

theorem upd_step_eq (prices : Dict ℚ) (acc : StateManager × List (String × String))
    (k : String) (pos : VirtualPosition) :
    upd_step prices acc (k, some pos) =
      match resolution pos prices k with
      | some reason => (unlock_pair acc.1 k reason, acc.2 ++ [(k, reason)])
      | none => acc := by
  unfold upd_step resolution
  simp only
  cases dictGet prices k with
  | none => rfl
  | some price => rfl

theorem upd_step_state_other (prices : Dict ℚ) (acc : StateManager × List (String × String))
    (e : String × Option VirtualPosition) (s : String) (hne : ¬ s = e.1) :
    get_state (upd_step prices acc e).1 s = get_state acc.1 s := by
  obtain ⟨k, pv⟩ := e
  simp only at hne
  cases pv with
  | none => rfl
  | some position =>
    rw [upd_step_eq]
    cases resolution position prices k with
    | none => rfl
    | some reason => simp [get_state_unlock, hne]

theorem upd_step_position_other (prices : Dict ℚ) (acc : StateManager × List (String × String))
    (e : String × Option VirtualPosition) (s : String) (hne : ¬ s = e.1) :
    get_position (upd_step prices acc e).1 s = get_position acc.1 s := by
  obtain ⟨k, pv⟩ := e
  simp only at hne
  cases pv with
  | none => rfl
  | some position =>
    rw [upd_step_eq]
    cases resolution position prices k with
    | none => rfl
    | some reason => simp [get_position_unlock, hne]

theorem fold_upd_other (prices : Dict ℚ) (items : List (String × Option VirtualPosition))
    (s : String) (h : ∀ e ∈ items, ¬ s = e.1) :
    ∀ acc : StateManager × List (String × String),
      get_state (items.foldl (upd_step prices) acc).1 s = get_state acc.1 s ∧
      get_position (items.foldl (upd_step prices) acc).1 s = get_position acc.1 s := by
  induction items with
  | nil => exact fun acc => ⟨rfl, rfl⟩
  | cons e rest ih =>
    intro acc
    simp only [List.foldl_cons]
    have h1s := upd_step_state_other prices acc e s (h e (List.mem_cons_self e rest))
    have h1p := upd_step_position_other prices acc e s (h e (List.mem_cons_self e rest))
    have h2 := ih (fun x hx => h x (List.mem_cons_of_mem e hx)) (upd_step prices acc e)
    exact ⟨h2.1.trans h1s, h2.2.trans h1p⟩

theorem upd_step_log_mono (prices : Dict ℚ) (acc : StateManager × List (String × String))
    (e : String × Option VirtualPosition) (x : String × String) (hx : x ∈ acc.2) :
    x ∈ (upd_step prices acc e).2 := by
  obtain ⟨k, pv⟩ := e
  cases pv with
  | none => exact hx
  | some position =>
    rw [upd_step_eq]
    cases resolution position prices k with
    | none => exact hx
    | some reason => exact List.mem_append_left _ hx

theorem fold_upd_log_mono (prices : Dict ℚ) (items : List (String × Option VirtualPosition))
    (x : String × String) :
    ∀ acc : StateManager × List (String × String), x ∈ acc.2 →
      x ∈ (items.foldl (upd_step prices) acc).2 := by
  induction items with
  | nil => exact fun acc hx => hx
  | cons e rest ih =>
    intro acc hx
    simp only [List.foldl_cons]
    exact ih (upd_step prices acc e) (upd_step_log_mono prices acc e x hx)

theorem fold_at_key (prices : Dict ℚ) (s : String) (pos : VirtualPosition)
    (items : List (String × Option VirtualPosition)) :
    ∀ acc : StateManager × List (String × String),
      (items.map Prod.fst).Nodup → dictGet items s = some (some pos) →
      (∀ reason, resolution pos prices s = some reason →
        get_state (items.foldl (upd_step prices) acc).1 s = PairState.IDLE ∧
        get_position (items.foldl (upd_step prices) acc).1 s = none ∧
        (s, reason) ∈ (items.foldl (upd_step prices) acc).2) ∧
      (resolution pos prices s = none →
        get_state (items.foldl (upd_step prices) acc).1 s = get_state acc.1 s ∧
        get_position (items.foldl (upd_step prices) acc).1 s = get_position acc.1 s) := by
  induction items with
  | nil =>
    intro acc hnd hfind
    simp [dictGet] at hfind
  | cons e rest ih =>
    intro acc hnd hfind
    obtain ⟨k, pv⟩ := e
    rw [List.map_cons, List.nodup_cons] at hnd
    simp only at hnd
    by_cases hks : s = k
    · subst hks
      rw [dictGet, if_pos rfl] at hfind
      replace hfind : pv = some pos := Option.some_injective _ hfind
      subst hfind
      have hrest : ∀ e ∈ rest, ¬ s = e.1 := by
        intro e he hse
        apply hnd.1
        rw [hse]
        exact List.mem_map_of_mem Prod.fst he
      simp only [List.foldl_cons]
      constructor
      · intro reason hres
        rw [upd_step_eq, hres]
        have hother := fold_upd_other prices rest s hrest
          (unlock_pair acc.1 s reason, acc.2 ++ [(s, reason)])
        refine ⟨?_, ?_, ?_⟩
        · rw [hother.1]
          simp [get_state_unlock]
        · rw [hother.2]
          simp [get_position_unlock]
        · exact fold_upd_log_mono prices rest (s, reason) _
            (List.mem_append_right _ (List.mem_singleton_self _))
      · intro hres
        rw [upd_step_eq, hres]
        exact fold_upd_other prices rest s hrest acc
    · rw [dictGet, if_neg hks] at hfind
      simp only [List.foldl_cons]
      have hstates := upd_step_state_other prices acc (k, pv) s hks
      have hpositions := upd_step_position_other prices acc (k, pv) s hks
      have hrec := ih (upd_step prices acc (k, pv)) hnd.2 hfind
      refine ⟨hrec.1, fun hres => ?_⟩
      have h2 := hrec.2 hres
      exact ⟨h2.1.trans hstates, h2.2.trans hpositions⟩

theorem get_position_eq_some (sm : StateManager) (s : String) (pos : VirtualPosition)
    (h : get_position sm s = some pos) :
    dictGet sm.positions s = some (some pos) := by
  unfold get_position at h
  cases hd : dictGet sm.positions s with
  | none => rw [hd] at h; simp at h
  | some opv => rw [hd] at h; simp at h; rw [h]

/-- C4: for every open position, `update_virtual_positions` tests
take-profit strictly before stop-loss (LONG: TP at `price ≥ tp`, else SL
at `price ≤ sl`; SHORT mirrored); a hit unlocks the symbol back to IDLE
and clears its position, recording the triggering reason; in every other
case — strictly-inside price, unknown direction, or symbol absent from
the price mapping — state and position are left untouched. -/
theorem C4_update_checks_tp_before_sl (sm : StateManager) (prices : Dict ℚ)
    (s : String) (pos : VirtualPosition)
    (hnd : (sm.positions.map Prod.fst).Nodup)
    (hpos : get_position sm s = some pos) :
    (∀ price, dictGet prices s = some price →
      (pos.direction = "LONG" →
        (pos.tp ≤ price →
          get_state (update_virtual_positions sm prices).1 s = PairState.IDLE ∧
          get_position (update_virtual_positions sm prices).1 s = none ∧
          (s, "TP_HIT") ∈ (update_virtual_positions sm prices).2) ∧
        (price < pos.tp → price ≤ pos.sl →
          get_state (update_virtual_positions sm prices).1 s = PairState.IDLE ∧
          get_position (update_virtual_positions sm prices).1 s = none ∧
          (s, "SL_HIT") ∈ (update_virtual_positions sm prices).2) ∧
        (pos.sl < price → price < pos.tp →
          get_state (update_virtual_positions sm prices).1 s = get_state sm s ∧
          get_position (update_virtual_positions sm prices).1 s = get_position sm s)) ∧
      (pos.direction = "SHORT" →
        (price ≤ pos.tp →
          get_state (update_virtual_positions sm prices).1 s = PairState.IDLE ∧
          get_position (update_virtual_positions sm prices).1 s = none ∧
          (s, "TP_HIT") ∈ (update_virtual_positions sm prices).2) ∧
        (pos.tp < price → pos.sl ≤ price →
          get_state (update_virtual_positions sm prices).1 s = PairState.IDLE ∧
          get_position (update_virtual_positions sm prices).1 s = none ∧
          (s, "SL_HIT") ∈ (update_virtual_positions sm prices).2) ∧
        (pos.tp < price → price < pos.sl →
          get_state (update_virtual_positions sm prices).1 s = get_state sm s ∧
          get_position (update_virtual_positions sm prices).1 s = get_position sm s)) ∧
      (¬ pos.direction = "LONG" → ¬ pos.direction = "SHORT" →
        get_state (update_virtual_positions sm prices).1 s = get_state sm s ∧
        get_position (update_virtual_positions sm prices).1 s = get_position sm s)) ∧
    (dictGet prices s = none →
      get_state (update_virtual_positions sm prices).1 s = get_state sm s ∧
      get_position (update_virtual_positions sm prices).1 s = get_position sm s) := by
  have hfind := get_position_eq_some sm s pos hpos
  have hmaster := fold_at_key prices s pos sm.positions (sm, []) hnd hfind
  constructor
  · intro price hp
    refine ⟨fun hdir => ⟨fun htp => ?_, fun htp hsl => ?_, fun hsl htp => ?_⟩,
            fun hdir => ⟨fun htp => ?_, fun htp hsl => ?_, fun htp hsl => ?_⟩,
            fun hd1 hd2 => ?_⟩
    · exact hmaster.1 "TP_HIT" (by simp [resolution, hp, hit_reason, hdir, htp])
    · exact hmaster.1 "SL_HIT"
        (by simp [resolution, hp, hit_reason, hdir, not_le.mpr htp, hsl])
    · exact hmaster.2
        (by simp [resolution, hp, hit_reason, hdir, not_le.mpr htp, not_le.mpr hsl])
    · exact hmaster.1 "TP_HIT" (by simp [resolution, hp, hit_reason, hdir, htp])
    · exact hmaster.1 "SL_HIT"
        (by simp [resolution, hp, hit_reason, hdir, not_le.mpr htp, hsl])
    · exact hmaster.2
        (by simp [resolution, hp, hit_reason, hdir, not_le.mpr htp, not_le.mpr hsl])
    · exact hmaster.2 (by simp [resolution, hp, hit_reason, hd1, hd2])
  · intro hp
    exact hmaster.2 (by simp [resolution, hp])

/-- Concrete manager holding one open LONG position, for the C4 witness. -/
def posC4 : VirtualPosition := ⟨"BTC/USDT:USDT", "LONG", 100, 104, 98, 2, 4⟩

/-- Concrete single-pair registry with `posC4` open. -/
def smC4 : StateManager :=
  ⟨[("BTC/USDT:USDT", PairState.LONG)], [("BTC/USDT:USDT", some posC4)]⟩

/-- Witness for C4: a price at 105 ≥ TP resolves the LONG position with
reason `TP_HIT`. -/
theorem C4_update_checks_tp_before_sl_witness :
    get_state (update_virtual_positions smC4 [("BTC/USDT:USDT", (105:ℚ))]).1
        "BTC/USDT:USDT" = PairState.IDLE ∧
    get_position (update_virtual_positions smC4 [("BTC/USDT:USDT", (105:ℚ))]).1
        "BTC/USDT:USDT" = none ∧
    ("BTC/USDT:USDT", "TP_HIT")
      ∈ (update_virtual_positions smC4 [("BTC/USDT:USDT", (105:ℚ))]).2 := by
  have h := C4_update_checks_tp_before_sl smC4 [("BTC/USDT:USDT", (105:ℚ))]
    "BTC/USDT:USDT" posC4 (by decide) (by decide)
  exact ((h.1 105 (by decide)).1 (by decide)).1 (by with_unfolding_all decide)

/-- C8: a successful lock followed immediately by an update whose price
lies strictly between stop and target leaves the symbol's state and
stored position exactly as the lock created them. -/
theorem C8_lock_then_inband_update (sm : StateManager) (s direction : String)
    (entry tp sl rr : ℚ) (score : ℤ) (price : ℚ)
    (hnd : (sm.positions.map Prod.fst).Nodup)
    (hidle : is_idle sm s = true)
    (hdir : direction = "LONG" ∨ direction = "SHORT")
    (hband : (direction = "LONG" → sl < price ∧ price < tp) ∧
             (direction = "SHORT" → tp < price ∧ price < sl)) :
    lock_pair sm s direction entry tp sl rr score
      = Except.ok (lock_pair_state sm s direction entry tp sl rr score, true) ∧
    get_state (update_virtual_positions
        (lock_pair_state sm s direction entry tp sl rr score) [(s, price)]).1 s
      = (if direction = "LONG" then PairState.LONG else PairState.SHORT) ∧
    get_position (update_virtual_positions
        (lock_pair_state sm s direction entry tp sl rr score) [(s, price)]).1 s
      = some ⟨s, direction, entry, tp, sl, rr, score⟩ := by
  have hS := lock_pair_state_of_idle sm s direction entry tp sl rr score hidle
  rw [lock_pair_of_idle sm s direction entry tp sl rr score hidle, hS]
  have hnd1 : ((dictSet sm.positions s
      (some ⟨s, direction, entry, tp, sl, rr, score⟩)).map Prod.fst).Nodup :=
    nodupKeys_dictSet sm.positions s _ hnd
  have hgp : get_position
      ({ states := dictSet sm.states s
            (if direction = "LONG" then PairState.LONG else PairState.SHORT)
         positions := dictSet sm.positions s
            (some ⟨s, direction, entry, tp, sl, rr, score⟩) } : StateManager) s
      = some ⟨s, direction, entry, tp, sl, rr, score⟩ := by
    unfold get_position
    simp only [dictGet_dictSet, if_pos rfl]
    rfl
  have hgs : get_state
      ({ states := dictSet sm.states s
            (if direction = "LONG" then PairState.LONG else PairState.SHORT)
         positions := dictSet sm.positions s
            (some ⟨s, direction, entry, tp, sl, rr, score⟩) } : StateManager) s
      = (if direction = "LONG" then PairState.LONG else PairState.SHORT) := by
    unfold get_state
    simp only [dictGet_dictSet, if_pos rfl]
    rfl
  have hres : resolution ⟨s, direction, entry, tp, sl, rr, score⟩ [(s, price)] s = none := by
    unfold resolution
    have hget : dictGet ([(s, price)] : Dict ℚ) s = some price := by
      simp [dictGet]
    rw [hget]
    rcases hdir with h | h
    · obtain ⟨h1, h2⟩ := hband.1 h
      simp [hit_reason, h, not_le.mpr h1, not_le.mpr h2]
    · obtain ⟨h1, h2⟩ := hband.2 h
      simp [hit_reason, h, not_le.mpr h1, not_le.mpr h2]
  have hmaster := (fold_at_key [(s, price)] s ⟨s, direction, entry, tp, sl, rr, score⟩
    (dictSet sm.positions s (some ⟨s, direction, entry, tp, sl, rr, score⟩))
    (({ states := dictSet sm.states s
            (if direction = "LONG" then PairState.LONG else PairState.SHORT)
        positions := dictSet sm.positions s
            (some ⟨s, direction, entry, tp, sl, rr, score⟩) } : StateManager), [])
    hnd1 (get_position_eq_some _ s _ hgp)).2 hres
  exact ⟨rfl, hmaster.1.trans hgs, hmaster.2.trans hgp⟩

/-- Witness for C8 at a concrete freshly initialised manager, LONG lock
with the price strictly inside the stop/target band. -/
theorem C8_lock_then_inband_update_witness :
    lock_pair (StateManager.init ["BTC/USDT:USDT"]) "BTC/USDT:USDT" "LONG" 100 104 98 2 4
      = Except.ok (lock_pair_state (StateManager.init ["BTC/USDT:USDT"]) "BTC/USDT:USDT"
          "LONG" 100 104 98 2 4, true) ∧
    get_state (update_virtual_positions
        (lock_pair_state (StateManager.init ["BTC/USDT:USDT"]) "BTC/USDT:USDT" "LONG"
          100 104 98 2 4) [("BTC/USDT:USDT", (101:ℚ))]).1 "BTC/USDT:USDT"
      = PairState.LONG ∧
    get_position (update_virtual_positions
        (lock_pair_state (StateManager.init ["BTC/USDT:USDT"]) "BTC/USDT:USDT" "LONG"
          100 104 98 2 4) [("BTC/USDT:USDT", (101:ℚ))]).1 "BTC/USDT:USDT"
      = some ⟨"BTC/USDT:USDT", "LONG", 100, 104, 98, 2, 4⟩ := by
  have h := C8_lock_then_inband_update (StateManager.init ["BTC/USDT:USDT"])
    "BTC/USDT:USDT" "LONG" 100 104 98 2 4 101
    (by decide) (by decide) (Or.inl rfl)
    (⟨fun _ => by with_unfolding_all decide, fun hcon => by simp at hcon⟩)
  simpa using h

/-! ### Registry invariant (C9) -/

/-- The per-symbol registry invariant: an open position exists exactly
when the state is not IDLE. -/
def RegistryInv (sm : StateManager) : Prop :=
  ∀ s, get_position sm s ≠ none ↔ get_state sm s ≠ PairState.IDLE

theorem dictGet_mkDict {α : Type} (pairs : List String) (v : α) (s : String) :
    ∀ acc : Dict α, (dictGet acc s = none ∨ dictGet acc s = some v) →
      dictGet (pairs.foldl (fun d p => dictSet d p v) acc) s = none ∨
      dictGet (pairs.foldl (fun d p => dictSet d p v) acc) s = some v := by
  induction pairs with
  | nil => exact fun acc h => h
  | cons p rest ih =>
    intro acc h
    simp only [List.foldl_cons]
    apply ih
    rw [dictGet_dictSet]
    by_cases hs : s = p
    · rw [if_pos hs]
      exact Or.inr rfl
    · rw [if_neg hs]
      exact h

theorem RegistryInv_init (pairs : List String) : RegistryInv (StateManager.init pairs) := by
  intro s
  have hstate : get_state (StateManager.init pairs) s = PairState.IDLE := by
    unfold get_state StateManager.init mkDict
    rcases dictGet_mkDict pairs PairState.IDLE s [] (Or.inl rfl) with h | h <;> rw [h] <;> rfl
  have hposition : get_position (StateManager.init pairs) s = none := by
    unfold get_position StateManager.init mkDict
    rcases dictGet_mkDict pairs (none : Option VirtualPosition) s [] (Or.inl rfl) with h | h <;>
      rw [h] <;> rfl
  simp [hstate, hposition]

theorem RegistryInv_unlock (sm : StateManager) (s reason : String)
    (h : RegistryInv sm) : RegistryInv (unlock_pair sm s reason) := by
  intro key
  rw [get_state_unlock, get_position_unlock]
  by_cases hk : key = s
  · simp [hk]
  · simp only [if_neg hk]
    exact h key

theorem RegistryInv_lock (sm : StateManager) (symbol direction : String)
    (entry tp sl rr : ℚ) (score : ℤ) (h : RegistryInv sm) :
    RegistryInv (lock_pair_state sm symbol direction entry tp sl rr score) := by
  by_cases hidle : is_idle sm symbol
  · rw [lock_pair_state_of_idle sm symbol direction entry tp sl rr score hidle]
    intro key
    unfold get_state get_position
    simp only [dictGet_dictSet]
    by_cases hk : key = symbol
    · simp only [if_pos hk]
      constructor
      · intro _
        split <;> simp
      · intro _
        simp
    · simp only [if_neg hk]
      exact h key
  · rw [lock_pair_state_of_not_idle sm symbol direction entry tp sl rr score
      (by simpa using hidle)]
    exact h

theorem RegistryInv_upd_step (prices : Dict ℚ) (acc : StateManager × List (String × String))
    (e : String × Option VirtualPosition) (h : RegistryInv acc.1) :
    RegistryInv (upd_step prices acc e).1 := by
  obtain ⟨k, pv⟩ := e
  cases pv with
  | none => exact h
  | some position =>
    rw [upd_step_eq]
    cases resolution position prices k with
    | none => exact h
    | some reason => exact RegistryInv_unlock acc.1 k reason h

theorem RegistryInv_fold (prices : Dict ℚ) (items : List (String × Option VirtualPosition)) :
    ∀ acc : StateManager × List (String × String), RegistryInv acc.1 →
      RegistryInv (items.foldl (upd_step prices) acc).1 := by
  induction items with
  | nil => exact fun acc h => h
  | cons e rest ih =>
    intro acc h
    simp only [List.foldl_cons]
    exact ih _ (RegistryInv_upd_step prices acc e h)

theorem Reachable_inv (sm : StateManager) (h : Reachable sm) : RegistryInv sm := by
  induction h with
  | init pairs => exact RegistryInv_init pairs
  | lock sm0 symbol direction entry tp sl rr score _ ih =>
    exact RegistryInv_lock sm0 symbol direction entry tp sl rr score ih
  | unlock sm0 symbol reason _ ih => exact RegistryInv_unlock sm0 symbol reason ih
  | update sm0 prices _ ih => exact RegistryInv_fold prices sm0.positions (sm0, []) ih

/-- C9: in every state reachable from construction by lock, unlock and
update calls, a symbol holds a non-None `VirtualPosition` iff its state
is not IDLE. -/
theorem C9_position_iff_not_idle (sm : StateManager) (h : Reachable sm) (s : String) :
    get_position sm s ≠ none ↔ get_state sm s ≠ PairState.IDLE :=
  Reachable_inv sm h s

/-- Witness for C9 at the freshly constructed manager. -/
theorem C9_position_iff_not_idle_witness :
    get_position (StateManager.init ["BTC/USDT:USDT"]) "BTC/USDT:USDT" ≠ none ↔
    get_state (StateManager.init ["BTC/USDT:USDT"]) "BTC/USDT:USDT" ≠ PairState.IDLE :=
  C9_position_iff_not_idle (StateManager.init ["BTC/USDT:USDT"])
    (Reachable.init ["BTC/USDT:USDT"]) "BTC/USDT:USDT"

/-! ### Vote ranges (C1) -/

theorem score_ofi_mem (df : List Candle) :
    _score_ofi df = -1 ∨ _score_ofi df = 0 ∨ _score_ofi df = 1 := by
  simp only [_score_ofi]
  repeat' split
  all_goals omega

theorem score_cvd_mem (df : List Candle) :
    _score_cvd_trend df = -1 ∨ _score_cvd_trend df = 0 ∨ _score_cvd_trend df = 1 := by
  simp only [_score_cvd_trend]
  repeat' split
  all_goals omega

theorem score_vwap_mem (df : List Candle) :
    _score_vwap df = -1 ∨ _score_vwap df = 0 ∨ _score_vwap df = 1 := by
  simp only [_score_vwap]
  repeat' split
  all_goals omega

theorem momentum_sub_mem (df : List Candle) :
    momentum_sub df = -1 ∨ momentum_sub df = 0 ∨ momentum_sub df = 1 := by
  simp only [momentum_sub]
  repeat' split
  all_goals omega

theorem score_momentum_mem (df : List Candle) (orderbook : Option OrderBook) :
    _score_momentum_and_orderbook df orderbook = -1 ∨
    _score_momentum_and_orderbook df orderbook = 0 ∨
    _score_momentum_and_orderbook df orderbook = 1 := by
  simp only [_score_momentum_and_orderbook]
  repeat' split
  all_goals omega

theorem score_liquidity_mem (df : List Candle) :
    _score_liquidity_zones df = -1 ∨ _score_liquidity_zones df = 0 ∨
    _score_liquidity_zones df = 1 := by
  simp only [_score_liquidity_zones]
  repeat' split
  all_goals omega

/-- C1: with at least 30 rows `compute_score` is exactly the sum of the
five condition votes, each in `{-1, 0, +1}`, hence in `[-5, 5]`; a `None`,
empty, or shorter-than-30-row DataFrame yields 0 (totality of the model
is the no-raise guarantee). -/
theorem C1_compute_score_sum (df : Option (List Candle)) (orderbook : Option OrderBook) :
    (df = none → compute_score df orderbook = 0) ∧
    (∀ l, df = some l → l.length < 30 → compute_score df orderbook = 0) ∧
    (∀ l, df = some l → 30 ≤ l.length →
      compute_score df orderbook =
        _score_ofi l + _score_cvd_trend l + _score_vwap l
          + _score_momentum_and_orderbook l orderbook + _score_liquidity_zones l ∧
      (_score_ofi l = -1 ∨ _score_ofi l = 0 ∨ _score_ofi l = 1) ∧
      (_score_cvd_trend l = -1 ∨ _score_cvd_trend l = 0 ∨ _score_cvd_trend l = 1) ∧
      (_score_vwap l = -1 ∨ _score_vwap l = 0 ∨ _score_vwap l = 1) ∧
      (_score_momentum_and_orderbook l orderbook = -1 ∨
        _score_momentum_and_orderbook l orderbook = 0 ∨
        _score_momentum_and_orderbook l orderbook = 1) ∧
      (_score_liquidity_zones l = -1 ∨ _score_liquidity_zones l = 0 ∨
        _score_liquidity_zones l = 1) ∧
      -5 ≤ compute_score df orderbook ∧ compute_score df orderbook ≤ 5) := by
  refine ⟨fun h => by rw [h]; rfl, fun l h hlen => ?_, fun l h hlen => ?_⟩
  · rw [h]
    simp [compute_score, hlen]
  · rw [h]
    have hsum : compute_score (some l) orderbook =
        _score_ofi l + _score_cvd_trend l + _score_vwap l
          + _score_momentum_and_orderbook l orderbook + _score_liquidity_zones l := by
      simp [compute_score, not_lt.mpr hlen]
    have h1 := score_ofi_mem l
    have h2 := score_cvd_mem l
    have h3 := score_vwap_mem l
    have h4 := score_momentum_mem l orderbook
    have h5 := score_liquidity_mem l
    refine ⟨hsum, h1, h2, h3, h4, h5, ?_, ?_⟩ <;> rw [hsum] <;>
      rcases h1 with h1 | h1 | h1 <;> rcases h2 with h2 | h2 | h2 <;>
      rcases h3 with h3 | h3 | h3 <;> rcases h4 with h4 | h4 | h4 <;>
      rcases h5 with h5 | h5 | h5 <;> rw [h1, h2, h3, h4, h5] <;> decide

/-- Witness for C1: the None branch, and the 30-row branch at a constant
window with no order book. -/
theorem C1_compute_score_sum_witness :
    compute_score none none = 0 ∧
    30 ≤ (List.replicate 30 (Candle.mk 1 1 1 1 1 (1/2) (1/2))).length ∧
    -5 ≤ compute_score (some (List.replicate 30 (Candle.mk 1 1 1 1 1 (1/2) (1/2)))) none ∧
    compute_score (some (List.replicate 30 (Candle.mk 1 1 1 1 1 (1/2) (1/2)))) none ≤ 5 := by
  have h := (C1_compute_score_sum
    (some (List.replicate 30 (Candle.mk 1 1 1 1 1 (1/2) (1/2)))) none).2.2
    (List.replicate 30 (Candle.mk 1 1 1 1 1 (1/2) (1/2))) rfl (by simp)
  exact ⟨(C1_compute_score_sum none none).1 rfl, by simp, h.2.2.2.2.2.2.1, h.2.2.2.2.2.2.2⟩

/-- C5 (risk-manager divergence): on a non-empty single-row window —
shorter than the documented `ATR_PERIOD + SWING_LOOKBACK` minimum —
`calculate_risk_params` does not return the `None` rejection: it raises
`IndexError` from `tr.rolling(...).mean().iloc[-2]` inside
`_compute_atr`. -/
theorem C5_risk_raises_on_single_row :
    calculate_risk_params [⟨100, 101, 99, 100, 1, 1/2, 1/2⟩] "LONG" ATR_SL_MULTIPLIER
      = Except.error "IndexError" ∧
    ¬ calculate_risk_params [⟨100, 101, 99, 100, 1, 1/2, 1/2⟩] "LONG" ATR_SL_MULTIPLIER
      = Except.ok none := by
  constructor
  · with_unfolding_all rfl
  · intro h
    rw [show calculate_risk_params [⟨100, 101, 99, 100, 1, 1/2, 1/2⟩] "LONG" ATR_SL_MULTIPLIER
        = Except.error "IndexError" from by with_unfolding_all rfl] at h
    exact absurd h (by simp)

/-! ### Rounding monotonicity (C2) -/

theorem roundHalfEven_mono {x y : ℚ} (h : x ≤ y) : roundHalfEven x ≤ roundHalfEven y := by
  unfold roundHalfEven
  have hf : (Int.floor x : ℤ) ≤ Int.floor y := Int.floor_mono h
  by_cases hff : (Int.floor x : ℤ) = Int.floor y
  · rw [hff]
    have hxy : x - (Int.floor y : ℚ) ≤ y - (Int.floor y : ℚ) := by linarith
    split_ifs <;> first
      | omega
      | (exfalso; linarith)
  · have hlt : (Int.floor x : ℤ) + 1 ≤ Int.floor y := by omega
    split_ifs <;> omega

theorem roundTo_mono {x y : ℚ} (n : ℕ) (h : x ≤ y) : roundTo x n ≤ roundTo y n := by
  unfold roundTo
  have hmul : x * 10 ^ n ≤ y * 10 ^ n :=
    mul_le_mul_of_nonneg_right h (by positivity)
  have h2 : ((roundHalfEven (x * 10 ^ n) : ℤ) : ℚ) ≤ (roundHalfEven (y * 10 ^ n) : ℤ) := by
    exact_mod_cast roundHalfEven_mono hmul
  rw [div_eq_mul_inv, div_eq_mul_inv]
  exact mul_le_mul_of_nonneg_right h2 (by positivity)

/-- The two-candle window on which the accepted risk geometry collapses
under the final 8-decimal rounding: all candles inside a 3e-9-wide range,
so the HVN-anchored stop and target sit within 1e-10 of the entry. -/
def dfC2 : List Candle :=
  [⟨100, 100 + 3/1000000000, 100, 100, 1, 1/2, 1/2⟩,
   ⟨100, 100 + 3/1000000000, 100, 100 + 1/12000000000, 1, 1/2, 1/2⟩]

/-- C2 counterexample: `calculate_risk_params` accepts `dfC2` LONG and
returns `Entry = SL = TP = 100` after rounding to 8 decimals, so the
returned dict violates the claimed strict ordering `SL < Entry < TP`. -/
theorem C2_counterexample_rounding_collapse :
    calculate_risk_params dfC2 "LONG" ATR_SL_MULTIPLIER
      = Except.ok (some ⟨100, 100, 100, 2⟩) ∧
    ¬ (∀ p : RiskParams,
        calculate_risk_params dfC2 "LONG" ATR_SL_MULTIPLIER = Except.ok (some p) →
        p.SL < p.Entry ∧ p.Entry < p.TP) := by
  have heval : calculate_risk_params dfC2 "LONG" ATR_SL_MULTIPLIER
      = Except.ok (some ⟨100, 100, 100, 2⟩) := by with_unfolding_all rfl
  refine ⟨heval, fun hall => ?_⟩
  have h := (hall ⟨100, 100, 100, 2⟩ heval).1
  exact absurd h (lt_irrefl 100)

/-- C2 (amended): every accepted `RiskParams` has `RR ≥ MIN_RR_RATIO`
with `RR = round(|tp-entry|/|entry-sl|, 3)` over the pre-rounding values,
whose geometry is strictly ordered per direction; after the final
rounding to 8 decimals the ordering holds non-strictly (ties possible). -/
theorem C2_risk_params_properties (df : List Candle) (direction : String)
    (m : ℚ) (p : RiskParams)
    (h : calculate_risk_params df direction m = Except.ok (some p)) :
    MIN_RR_RATIO ≤ p.RR ∧
    ∃ entry sl tp : ℚ,
      p.Entry = roundTo entry 8 ∧ p.SL = roundTo sl 8 ∧ p.TP = roundTo tp 8 ∧
      p.RR = roundTo (|tp - entry| / |entry - sl|) 3 ∧
      (direction = "LONG" →
        sl < entry ∧ entry < tp ∧ p.SL ≤ p.Entry ∧ p.Entry ≤ p.TP) ∧
      (direction = "SHORT" →
        tp < entry ∧ entry < sl ∧ p.TP ≤ p.Entry ∧ p.Entry ≤ p.SL) := by
  unfold calculate_risk_params at h
  split at h
  · simp at h
  split at h
  · simp at h
  split at h
  · simp at h
  next atr heq =>
    split at h
    · simp at h
    next hg1 =>
      split at h
      · simp at h
      next hg2 =>
        split at h
        · simp at h
        next hg3 =>
          split at h
          · simp at h
          next hg4 =>
            rw [Except.ok.injEq, Option.some.injEq] at h
            subst h
            rw [not_lt] at hg4
            refine ⟨hg4, risk_entry df, risk_sl df direction (atr * m),
              risk_tp df direction, rfl, rfl, rfl, rfl, fun hd => ?_, fun hd => ?_⟩
            · rw [not_and_or, not_or] at hg1
              rcases hg1 with hcon | ⟨hsl, htp⟩
              · exact absurd hd hcon
              · rw [not_le] at hsl htp
                exact ⟨hsl, htp, roundTo_mono 8 hsl.le, roundTo_mono 8 htp.le⟩
            · rw [not_and_or, not_or] at hg2
              rcases hg2 with hcon | ⟨hsl, htp⟩
              · exact absurd hd hcon
              · rw [not_le] at hsl htp
                exact ⟨htp, hsl, roundTo_mono 8 htp.le, roundTo_mono 8 hsl.le⟩

/-- Witness for C2 (amended) at the concrete accepted window `dfC2`. -/
theorem C2_risk_params_properties_witness :
    calculate_risk_params dfC2 "LONG" ATR_SL_MULTIPLIER
      = Except.ok (some ⟨100, 100, 100, 2⟩) ∧
    MIN_RR_RATIO ≤ (RiskParams.mk 100 100 100 2).RR :=
  ⟨by with_unfolding_all rfl,
   (C2_risk_params_properties dfC2 "LONG" ATR_SL_MULTIPLIER ⟨100, 100, 100, 2⟩
      (by with_unfolding_all rfl)).1⟩

/-! ### Missing order book (C6) -/

/-- 30-candle window with flat closes except a higher final close, so the
momentum sub-vote is +1. -/
def dfC6 : List Candle :=
  List.replicate 29 ⟨1, 1, 1, 1, 1, 1/2, 1/2⟩ ++ [⟨2, 2, 2, 2, 1, 1/2, 1/2⟩]

/-- C6 counterexample: with the order book absent, Condition 4 still votes
+1 on `dfC6` (the momentum sub-vote passes through), refuting "Condition 4
votes neutral (0)". -/
theorem C6_counterexample_momentum_passes :
    _score_momentum_and_orderbook dfC6 none = 1 ∧
    ¬ _score_momentum_and_orderbook dfC6 none = 0 := by
  have h : _score_momentum_and_orderbook dfC6 none = 1 := by with_unfolding_all rfl
  exact ⟨h, by rw [h]; decide⟩

/-- C6 (amended): an absent snapshot (`None`) or one with empty bids or
asks zeroes the orderbook sub-vote, so Condition 4 reduces to exactly the
momentum sub-vote, and `compute_score` still evaluates the normal
five-vote sum — the missing book never blocks scoring. -/
theorem C6_absent_book_neutral_subvote (df : List Candle) (orderbook : Option OrderBook)
    (h : orderbook = none ∨ ∃ b, orderbook = some b ∧ (b.bids = [] ∨ b.asks = [])) :
    book_sub orderbook = 0 ∧
    _score_momentum_and_orderbook df orderbook = momentum_sub df ∧
    (30 ≤ df.length → compute_score (some df) orderbook =
      _score_ofi df + _score_cvd_trend df + _score_vwap df + momentum_sub df
        + _score_liquidity_zones df) := by
  have hb : book_sub orderbook = 0 := by
    rcases h with rfl | ⟨b, rfl, hb | hb⟩
    · rfl
    · unfold book_sub
      simp only [hb]
    · unfold book_sub
      simp only [hb]
      cases hbb : b.bids <;> rfl
  have hc4 : _score_momentum_and_orderbook df orderbook = momentum_sub df := by
    unfold _score_momentum_and_orderbook
    rw [hb]
    rcases momentum_sub_mem df with h1 | h1 | h1 <;> rw [h1] <;> simp
  refine ⟨hb, hc4, fun hlen => ?_⟩
  rw [show compute_score (some df) orderbook =
      _score_ofi df + _score_cvd_trend df + _score_vwap df
        + _score_momentum_and_orderbook df orderbook + _score_liquidity_zones df from by
    simp [compute_score, not_lt.mpr hlen], hc4]

/-- Witness for C6 (amended) at `orderbook = none` and the concrete
window `dfC6`. -/
theorem C6_absent_book_neutral_subvote_witness :
    book_sub none = 0 ∧
    _score_momentum_and_orderbook dfC6 none = momentum_sub dfC6 ∧
    (30 ≤ dfC6.length → compute_score (some dfC6) none =
      _score_ofi dfC6 + _score_cvd_trend dfC6 + _score_vwap dfC6 + momentum_sub dfC6
        + _score_liquidity_zones dfC6) :=
  C6_absent_book_neutral_subvote dfC6 none (Or.inl rfl)

/-! ### Wash-trade taker band (C7) -/

set_option linter.unusedVariables false in
/-- C7: whenever the second-to-last candle has positive volume and its
taker-buy ratio lies inside the closed band
`[WASH_TRADE_TAKER_RATIO_LOW, WASH_TRADE_TAKER_RATIO_HIGH]`, the gate
fails for a sufficiently long window. -/
theorem C7_taker_band_fails_gate (df : List Candle)
    (hlen : ATR_MA_PERIOD + ATR_PERIOD + 2 ≤ df.length)
    (hvol : 0 < (df.getD (df.length - 2) cDefault).volume)
    (hlow : WASH_TRADE_TAKER_RATIO_LOW ≤
      (df.getD (df.length - 2) cDefault).taker_buy_volume
        / (df.getD (df.length - 2) cDefault).volume)
    (hhigh : (df.getD (df.length - 2) cDefault).taker_buy_volume
        / (df.getD (df.length - 2) cDefault).volume ≤ WASH_TRADE_TAKER_RATIO_HIGH) :
    gate_anti_wash_trading df = false := by
  simp only [gate_anti_wash_trading]
  rw [if_neg (not_lt.mpr hlen)]
  repeat' split
  all_goals first
    | rfl
    | exact absurd (And.intro hlow hhigh) (by assumption)

/-- Witness for C7: a 40-row constant window whose completed candle has
taker ratio exactly 0.50 fails the gate. -/
theorem C7_taker_band_fails_gate_witness :
    gate_anti_wash_trading (List.replicate 40 (Candle.mk 1 2 0 1 1 (1/2) (1/2))) = false := by
  apply C7_taker_band_fails_gate
  · simp [ATR_MA_PERIOD, ATR_PERIOD]
  · with_unfolding_all decide
  · with_unfolding_all decide
  · with_unfolding_all decide
